import Mathlib

/-!
Shallow embedding of the video-file sharing core of the repository:
the share-session coordinator (`useShare.ts`), the file-selection entry
point (`VideoFileModal.tsx`), the remote-control read-model handlers
(`useVideoControls.ts`), and the capture-and-publish engine
(`useVideoFileShare`).  Each definition mirrors one source function;
theorems settle the specification claims about them.
-/

namespace RapVoice

/-! ## Share session coordinator (src/packages/react/src/hooks/useShare.ts)

The coordinator state is `{isOpen, isSharing, activeType, stopHandler}`.
A registered stop handler is summarized by whether invoking it throws;
the coordinator never inspects anything else about it. -/

/-- An externally registered asynchronous stop callback, summarized by
whether invoking it throws. -/
structure StopHandler where
  throws : Bool
deriving DecidableEq, Repr

inductive ShareKind
  | screen
  | video
deriving DecidableEq, Repr

structure CoordState where
  isOpen : Bool
  isSharing : Bool
  activeType : Option ShareKind
  stopHandler : Option StopHandler
deriving DecidableEq, Repr

def coordInit : CoordState :=
  { isOpen := false, isSharing := false, activeType := none, stopHandler := none }

def openPanel (s : CoordState) : CoordState :=
  { s with isOpen := true }

def closePanel (s : CoordState) : CoordState :=
  { s with isOpen := false }

def togglePanel (s : CoordState) : CoordState :=
  { s with isOpen := !s.isOpen }

/-- `setStopHandler(fn)`: stores the callback in `stopHandlerRef.current`. -/
def setStopHandler (fn : Option StopHandler) (s : CoordState) : CoordState :=
  { s with stopHandler := fn }

/-- `setSharing(sharing, type?)`: sets `isSharing`; sets `activeType` to
`type ?? null` when sharing, to `null` otherwise. -/
def setSharing (sharing : Bool) (ty : Option ShareKind) (s : CoordState) : CoordState :=
  { s with isSharing := sharing, activeType := if sharing then ty else none }

/-- Result of `stop()`: the new state, whether the registered handler was
invoked, whether that invocation threw (the `catch \x7b\x7d` swallows it), and
whether `stop()` itself completed normally. -/
structure StopOutcome where
  state : CoordState
  handlerInvoked : Bool
  handlerThrew : Bool
  completedNormally : Bool
deriving DecidableEq, Repr

/-- `stop()` from useShare.ts: awaits `stopHandlerRef.current` when non-null
inside `try/catch` with an empty catch, then `setIsSharing(false)` and
`setActiveType(null)`.  Note that `stopHandlerRef.current` is never
reassigned. -/
def coordStop (s : CoordState) : StopOutcome :=
  match s.stopHandler with
  | some h =>
      { state := { s with isSharing := false, activeType := none }
        handlerInvoked := true
        handlerThrew := h.throws
        completedNormally := true }
  | none =>
      { state := { s with isSharing := false, activeType := none }
        handlerInvoked := false
        handlerThrew := false
        completedNormally := true }

/-- One coordinator operation, as exposed by the `ShareContextValue`. -/
inductive CoordOp
  | openOp
  | closeOp
  | toggleOp
  | setSharingOp (sharing : Bool) (ty : Option ShareKind)
  | setStopHandlerOp (fn : Option StopHandler)
  | stopOp
deriving DecidableEq, Repr

def coordStep (s : CoordState) : CoordOp → CoordState
  | .openOp => openPanel s
  | .closeOp => closePanel s
  | .toggleOp => togglePanel s
  | .setSharingOp sharing ty => setSharing sharing ty s
  | .setStopHandlerOp fn => setStopHandler fn s
  | .stopOp => (coordStop s).state

def coordRun (s : CoordState) (ops : List CoordOp) : CoordState :=
  ops.foldl coordStep s

/-! ## File selection entry point
(src/packages/react/src/components/VideoFileModal.tsx, `handleFileSelect`) -/

structure FileDesc where
  fname : String
  ftype : String
  size : Nat
deriving DecidableEq, Repr

structure ModalState where
  selectedFile : Option FileDesc
  errorMsg : Option String
deriving DecidableEq, Repr

/-- Embedding of the host string primitive `s.startsWith(pre)`: `pre`
is a prefix of `s` character by character. -/
def jsStartsWith (s pre : String) : Bool :=
  pre.data.isPrefixOf s.data

/-- `handleFileSelect`: returns early if no file was chosen; sets a
validation message and changes nothing else when `file.type` does not
start with `video/`; otherwise stores the file and clears the error. -/
def handleFileSelect (f : Option FileDesc) (st : ModalState) : ModalState :=
  match f with
  | none => st
  | some file =>
      if !(jsStartsWith file.ftype "video/") then
        { st with errorMsg := some "Please select a valid video file" }
      else
        { selectedFile := some file, errorMsg := none }

/-! ## Remote-control read model
(src/packages/react/src/hooks/useVideoControls.ts)

The effect registers two RPC handlers whose closures capture the values
of `isPlaying`, `currentTime` and `duration` current at registration
time; `setIsPlaying`/`setCurrentTime` update the live React state.  A
handler is therefore a function of the captured model and the live
model. -/

structure ReadModel where
  isPlaying : Bool
  currentTime : ℚ
  duration : ℚ
  volume : ℚ
  playbackRate : ℚ
deriving DecidableEq, Repr

/-- Commands a handler could issue against the playback element. -/
inductive ElemCmd
  | play
  | pause
  | setMuted (b : Bool)
  | setVolume (v : ℚ)
deriving DecidableEq, Repr

/-- Result of one RPC invocation: the string response, the live read
model after the `set*` calls, and the element commands issued (these two
handlers never touch the element). -/
structure RpcResult where
  response : String
  model : ReadModel
  elemCmds : List ElemCmd
deriving DecidableEq, Repr

/-- The `PausePlayStream` handler: `setIsPlaying(!isPlaying); return
String(isPlaying)` where `isPlaying` is the captured value. -/
def pausePlayStreamHandler (captured live : ReadModel) : RpcResult :=
  { response := toString captured.isPlaying
    model := { live with isPlaying := !captured.isPlaying }
    elemCmds := [] }

/-- The `SeekStream` handler: `setCurrentTime(Math.min(Math.max(0,
currentTime + offset), duration)); return String(currentTime)` where
`currentTime` and `duration` are the captured values. -/
def seekStreamHandler (captured : ReadModel) (offset : ℚ) (live : ReadModel) : RpcResult :=
  { response := toString captured.currentTime
    model := { live with currentTime := min (max 0 (captured.currentTime + offset)) captured.duration }
    elemCmds := [] }

/-! ## Capture-and-publish engine (src/unnamed/part_001, `useVideoFileShare`)

`startSharing` / `stopSharing` are embedded as state-passing functions.
The room's `publishTrack` / `unpublishTrack` and the element's `play()`
can throw; their outcomes are an environment parameter (`Session`),
indexed by call count.  A `Trace` records the externally observable
effects of one run: publish and unpublish calls with their options and
outcomes, stopped stream sub-tracks, `onError` / `onTrackPublished` /
`onTrackUnpublished` callback firings, and commands issued to the
playback element. -/

structure SubTrack where
  tid : Nat
deriving DecidableEq, Repr

inductive TrackSource
  | screenShare
  | unknownSource
  | camera
  | microphone
deriving DecidableEq, Repr

structure PublishOpts where
  pname : String
  source : TrackSource
  simulcast : Option Bool
  streamId : Option Nat
deriving DecidableEq, Repr

/-- A captured media stream: zero or one video sub-track is used (the
code publishes `getVideoTracks()[0]`), and every audio sub-track. -/
structure Stream where
  sid : Nat
  videoTracks : List SubTrack
  audioTracks : List SubTrack
deriving DecidableEq, Repr

/-- A `LocalTrackPublication` handle: the publish-call index it came
from and the sub-track it publishes. -/
structure Handle where
  hid : Nat
  track : SubTrack
deriving DecidableEq, Repr

inductive Err
  | elementNotReady
  | playFailed
  | publishFailed (n : Nat)
  | unpublishFailed (n : Nat)
deriving DecidableEq, Repr

structure Elem where
  paused : Bool
  muted : Bool
  volume : ℚ
deriving DecidableEq, Repr

structure PublishCall where
  track : SubTrack
  opts : PublishOpts
  ok : Bool
deriving DecidableEq, Repr

structure Trace where
  publishCalls : List PublishCall
  unpublishCalls : List (Handle × Bool)
  stoppedTracks : List SubTrack
  errorsFired : List Err
  trackPublishedFired : Nat
  trackUnpublishedFired : Nat
  elemCmds : List ElemCmd
deriving DecidableEq, Repr

def Trace.empty : Trace :=
  { publishCalls := [], unpublishCalls := [], stoppedTracks := [], errorsFired := []
    trackPublishedFired := 0, trackUnpublishedFired := 0, elemCmds := [] }

/-- The engine's React state and refs: `isSharing`, `isLoading`,
`error`, `videoTrackRef`, `audioTracksRef`, `streamRef`. -/
structure EngineState where
  isSharing : Bool
  isLoading : Bool
  error : Option Err
  videoTrackRef : Option Handle
  audioTracksRef : Option (List Handle)
  streamRef : Option Stream
deriving DecidableEq, Repr

def initEngine : EngineState :=
  { isSharing := false, isLoading := false, error := none
    videoTrackRef := none, audioTracksRef := none, streamRef := none }

/-- Environment: whether the n-th publish call throws, whether the n-th
unpublish call throws, and whether `videoElement.play()` throws. -/
structure Session where
  pubFail : Nat → Bool
  unpubFail : Nat → Bool
  playFails : Bool

/-- A session in which no publish, unpublish or play call throws. -/
def nominalSession : Session :=
  { pubFail := fun _ => false, unpubFail := fun _ => false, playFails := false }

structure World where
  engine : EngineState
  element : Option Elem
  trace : Trace
deriving DecidableEq, Repr

def initWorld (elem : Option Elem) : World :=
  { engine := initEngine, element := elem, trace := Trace.empty }

/-- One `unpublishTrack` call: records the call and its outcome; throws
`unpublishFailed n` when the environment makes the n-th unpublish call
fail. -/
def unpublishStep (sess : Session) (h : Handle) (w : World) : World × Option Err :=
  let n := w.trace.unpublishCalls.length
  let ok := !sess.unpubFail n
  let w := { w with trace := { w.trace with unpublishCalls := w.trace.unpublishCalls ++ [(h, ok)] } }
  (w, if ok then none else some (Err.unpublishFailed n))

/-- The `for (const audioTrackRef of audioTracksRef.current)` unpublish
loop of `stopSharing`: sequential awaits, aborting on the first throw.
`audioTracksRef.current` is only cleared by the caller after the whole
loop succeeds. -/
def unpublishAudioLoop (sess : Session) (hs : List Handle) (w : World) : World × Option Err :=
  match hs with
  | [] => (w, none)
  | h :: rest =>
      match unpublishStep sess h w with
      | (w, some e) => (w, some e)
      | (w, none) => unpublishAudioLoop sess rest w

/-- The `try` body of `stopSharing`: unpublish the video handle (clearing
the ref after its own unpublish succeeds), then each audio handle
(clearing the ref after the loop), then stop every sub-track of the
retained stream and clear it, mark not sharing, fire
`onTrackUnpublished`, and pause the element when present. -/
def stopBody (sess : Session) (w : World) : World × Option Err :=
  let vstep : World × Option Err :=
    match w.engine.videoTrackRef with
    | some h =>
        match unpublishStep sess h w with
        | (w, some e) => (w, some e)
        | (w, none) => ({ w with engine := { w.engine with videoTrackRef := none } }, none)
    | none => (w, none)
  match vstep with
  | (w, some e) => (w, some e)
  | (w, none) =>
      let astep : World × Option Err :=
        match w.engine.audioTracksRef with
        | some hs =>
            match unpublishAudioLoop sess hs w with
            | (w, some e) => (w, some e)
            | (w, none) => ({ w with engine := { w.engine with audioTracksRef := none } }, none)
        | none => (w, none)
      match astep with
      | (w, some e) => (w, some e)
      | (w, none) =>
          let w :=
            match w.engine.streamRef with
            | some s =>
                { w with
                  engine := { w.engine with streamRef := none }
                  trace := { w.trace with
                    stoppedTracks := w.trace.stoppedTracks ++ s.videoTracks ++ s.audioTracks } }
            | none => w
          let w := { w with engine := { w.engine with isSharing := false } }
          let w := { w with trace := { w.trace with
                      trackUnpublishedFired := w.trace.trackUnpublishedFired + 1 } }
          let w :=
            match w.element with
            | some el =>
                { w with element := some { el with paused := true }
                         trace := { w.trace with elemCmds := w.trace.elemCmds ++ [ElemCmd.pause] } }
            | none => w
          (w, none)

/-- The `catch`/`finally` of `stopSharing`: on a throw, set the error
state and fire `onError`; either way clear `isLoading`. -/
def finishStop : World × Option Err → World
  | (w, some e) =>
      { w with engine := { w.engine with error := some e, isLoading := false }
               trace := { w.trace with errorsFired := w.trace.errorsFired ++ [e] } }
  | (w, none) => { w with engine := { w.engine with isLoading := false } }

/-- `stopSharing`: sets `isLoading`, runs the body, and on a throw sets
the error state and fires `onError`; `isLoading` is cleared in the
`finally`. -/
def stopSharing (sess : Session) (w : World) : World :=
  finishStop (stopBody sess { w with engine := { w.engine with isLoading := true } })

def videoOpts (sid : Nat) : PublishOpts :=
  { pname := "shared-video-file", source := TrackSource.screenShare
    simulcast := some false, streamId := some sid }

def audioOpts (sid : Nat) : PublishOpts :=
  { pname := "shared-video-audio", source := TrackSource.unknownSource
    simulcast := none, streamId := some sid }

/-- One `publishTrack` call: records the call with its options and
outcome; returns the publication handle on success and throws
`publishFailed n` when the environment makes the n-th publish call
fail. -/
def publishStep (sess : Session) (t : SubTrack) (opts : PublishOpts) (w : World) :
    World × Except Err Handle :=
  let n := w.trace.publishCalls.length
  let ok := !sess.pubFail n
  let w := { w with trace := { w.trace with
              publishCalls := w.trace.publishCalls ++ [{ track := t, opts := opts, ok := ok }] } }
  (w, if ok then Except.ok { hid := n, track := t } else Except.error (Err.publishFailed n))

/-- The `for (const rawAudioTrack of audioTracks)` publish loop of
`startSharing`: publishes every audio sub-track under the fixed audio
options and pushes each handle onto `audioTracksRef.current` (the
optional-chained push is a no-op when the ref is null). -/
def publishAudioLoop (sess : Session) (sid : Nat) (ts : List SubTrack) (w : World) :
    World × Option Err :=
  match ts with
  | [] => (w, none)
  | t :: rest =>
      match publishStep sess t (audioOpts sid) w with
      | (w, Except.error e) => (w, some e)
      | (w, Except.ok h) =>
          let w := { w with engine := { w.engine with
                      audioTracksRef := w.engine.audioTracksRef.map (fun l => l ++ [h]) } }
          publishAudioLoop sess sid rest w

/-- The tail of `startSharing`'s `try` body: when no throw has happened
so far, mark the engine as sharing and fire `onTrackPublished`;
otherwise propagate the thrown error. -/
def finishPublish : World × Option Err → World × Option Err
  | (w, some e) => (w, some e)
  | (w, none) =>
      ({ w with
          engine := { w.engine with isSharing := true }
          trace := { w.trace with trackPublishedFired := w.trace.trackPublishedFired + 1 } },
       none)

/-- The part of `startSharing`'s `try` body after playback has started:
capture the stream, publish the first video sub-track (if any) under
`shared-video-file` as a screen-share source with simulcast disabled,
then every audio sub-track under `shared-video-audio`, then mark
sharing and fire `onTrackPublished`. -/
def startAfterPlay (sess : Session) (cap : Stream) (w : World) : World × Option Err :=
  let w := { w with engine := { w.engine with streamRef := some cap } }
  let vstep : World × Option Err :=
    match cap.videoTracks with
    | [] => (w, none)
    | t :: _ =>
        match publishStep sess t (videoOpts cap.sid) w with
        | (w, Except.error e) => (w, some e)
        | (w, Except.ok h) => ({ w with engine := { w.engine with videoTrackRef := some h } }, none)
  match vstep with
  | (w, some e) => (w, some e)
  | (w, none) =>
      finishPublish
        (match cap.audioTracks with
         | [] => (w, none)
         | ts =>
             let w := { w with engine := { w.engine with audioTracksRef := some [] } }
             publishAudioLoop sess cap.sid ts w)

/-- The `try` body of `startSharing` given a bound element: unmute, set
volume to maximum, await `play()` when paused, then capture and
publish. -/
def startBody (sess : Session) (cap : Stream) (el : Elem) (w : World) : World × Option Err :=
  let el := { el with muted := false, volume := 1 }
  let w := { w with element := some el
                    trace := { w.trace with elemCmds :=
                      w.trace.elemCmds ++ [ElemCmd.setMuted false, ElemCmd.setVolume 1] } }
  if el.paused then
    if sess.playFails then (w, some Err.playFailed)
    else
      let el := { el with paused := false }
      let w := { w with element := some el
                        trace := { w.trace with elemCmds := w.trace.elemCmds ++ [ElemCmd.play] } }
      startAfterPlay sess cap w
  else startAfterPlay sess cap w

/-- The `catch`/`finally` of `startSharing`: on a throw, set the error
state, fire `onError`, and run `stopSharing` as compensation; either
way clear `isLoading` at the end. -/
def finishStart (sess : Session) : World × Option Err → World
  | (w, some e) =>
      let w := { w with engine := { w.engine with error := some e }
                        trace := { w.trace with errorsFired := w.trace.errorsFired ++ [e] } }
      let w := stopSharing sess w
      { w with engine := { w.engine with isLoading := false } }
  | (w, none) => { w with engine := { w.engine with isLoading := false } }

/-- `startSharing`: fails with `elementNotReady` (firing `onError`,
without touching `isLoading`) when no element is bound; is a no-op when
already sharing; otherwise runs the body and on a throw sets the error
state, fires `onError`, and runs `stopSharing` as compensation;
`isLoading` is cleared in the `finally`. -/
def startSharing (sess : Session) (cap : Stream) (w : World) : World :=
  match w.element with
  | none =>
      { w with engine := { w.engine with error := some Err.elementNotReady }
               trace := { w.trace with errorsFired := w.trace.errorsFired ++ [Err.elementNotReady] } }
  | some el =>
      if w.engine.isSharing then w
      else
        finishStart sess (startBody sess cap el
          { w with engine := { w.engine with isLoading := true, error := none } })

/-! ## Auxiliary definitions: handle enumeration, and concrete states and
sessions used in counterexamples and witnesses -/

def coordSharingScreen : CoordState :=
  { isOpen := false, isSharing := true, activeType := some ShareKind.screen,
    stopHandler := some { throws := true } }

def seekModelA : ReadModel :=
  { isPlaying := false, currentTime := 10, duration := 60, volume := 1, playbackRate := 1 }

def seekModelB : ReadModel :=
  { isPlaying := true, currentTime := 50, duration := 60, volume := 1, playbackRate := 1 }

def audioHandles (n0 : Nat) : List SubTrack → List Handle
  | [] => []
  | t :: rest => { hid := n0, track := t } :: audioHandles (n0 + 1) rest

def idleWorld (l : Bool) (e : Option Err) (elem : Option Elem) : World :=
  { engine := { isSharing := false, isLoading := l, error := e
                videoTrackRef := none, audioTracksRef := none, streamRef := none }
    element := elem, trace := Trace.empty }

def sharingWorld (vh : Handle) (ats : Option (List Handle)) (s : Stream) (l : Bool)
    (e : Option Err) (elem : Option Elem) : World :=
  { engine := { isSharing := true, isLoading := l, error := e
                videoTrackRef := some vh, audioTracksRef := ats, streamRef := some s }
    element := elem, trace := Trace.empty }

def startWorld (el : Elem) : World :=
  { engine := { isSharing := false, isLoading := true, error := none
                videoTrackRef := none, audioTracksRef := none, streamRef := none }
    element := some el, trace := Trace.empty }

def failingUnpublishSession : Session :=
  { pubFail := fun _ => false, unpubFail := fun _ => true, playFails := false }

def failingPublishSession : Session :=
  { pubFail := fun n => n == 0, unpubFail := fun _ => false, playFails := false }

def failCap : Stream := { sid := 7, videoTracks := [{ tid := 1 }], audioTracks := [{ tid := 2 }] }

def failElem : Elem := { paused := true, muted := true, volume := 1 }

/-! ## Theorems about the coordinator -/

/-- Claim C1, counterexample: starting from a sharing state with a
registered (throwing) stop handler, `stop()` does set `activeType` to
`none`, but the stop handler reference is NOT cleared to null —
`stopHandlerRef.current` is never reassigned by `stop()`. -/
theorem coordStop_claim_counterexample :
    ¬ (((coordStop coordSharingScreen).state.activeType = none) ∧
       ((coordStop coordSharingScreen).state.stopHandler = none)) := by
  decide

/-- Claim C1, amended: after `stop()` completes, `activeType = none` and
`isSharing = false`, and `stop()` completes normally even when the
registered handler throws (the error is swallowed); however the stop
handler reference is left unchanged rather than cleared to null. -/
theorem coordStop_amended (s : CoordState) :
    (coordStop s).state.activeType = none ∧
    (coordStop s).state.isSharing = false ∧
    (coordStop s).state.stopHandler = s.stopHandler ∧
    (coordStop s).completedNormally = true := by
  obtain ⟨o, sh, ty, hd⟩ := s
  cases hd <;> simp [coordStop]

/-- Claim C4, counterexample: the state reached from the initial
coordinator state by the single operation `setSharing(true, SCREEN)` has
`activeType ≠ none` while `stopHandler = none`, violating the claimed
invariant that the stop handler is non-null iff `activeType` is not
none. -/
theorem coordinator_invariant_counterexample :
    ((coordRun coordInit [CoordOp.setSharingOp true (some ShareKind.screen)]).activeType ≠ none) ∧
    ((coordRun coordInit [CoordOp.setSharingOp true (some ShareKind.screen)]).stopHandler = none) := by
  decide

/-- Claim C4, amended: the coordinator does not enforce the biconditional;
`stopHandler` is modified only by `setStopHandler` — every other
operation, including `stop()` and `setSharing`, leaves it unchanged — so
`activeType` and `stopHandler` vary independently and the invariant is a
caller obligation, not a state invariant. -/
theorem coordinator_stopHandler_only_set_explicitly (s : CoordState) (op : CoordOp) :
    (coordStep s op).stopHandler =
      (match op with
       | CoordOp.setStopHandlerOp fn => fn
       | _ => s.stopHandler) := by
  cases op <;> cases hs : s.stopHandler <;>
    simp [coordStep, openPanel, closePanel, togglePanel, setSharing, setStopHandler, coordStop, hs]

/-! ## Theorems about file selection -/

/-- Claim C8, counterexample: a file whose type is the bare string
`video` does begin with `video`, yet `handleFileSelect` rejects it (the
code tests for the prefix `video/`), leaving the selected file
unchanged and setting the validation message. -/
theorem fileSelect_claim_counterexample :
    (jsStartsWith "video" "video" = true) ∧
    ((handleFileSelect (some { fname := "clip", ftype := "video", size := 5 })
        { selectedFile := none, errorMsg := none }).selectedFile = none) ∧
    ((handleFileSelect (some { fname := "clip", ftype := "video", size := 5 })
        { selectedFile := none, errorMsg := none }).errorMsg =
      some "Please select a valid video file") := by
  decide

/-- Claim C8, amended: for every file whose type does not begin with
`video/`, file selection rejects it with the validation message and
leaves the previously selected file unchanged; for every file whose
type begins with `video/`, it becomes the selected file and the error
is cleared. -/
theorem fileSelect_amended (file : FileDesc) (st : ModalState) :
    (jsStartsWith file.ftype "video/" = true →
      handleFileSelect (some file) st = { selectedFile := some file, errorMsg := none }) ∧
    (jsStartsWith file.ftype "video/" = false →
      handleFileSelect (some file) st =
        { st with errorMsg := some "Please select a valid video file" }) := by
  constructor <;> intro h <;> simp [handleFileSelect, h]

/-- Witness for `fileSelect_amended`: a `video/mp4` file is accepted and
a `text/plain` file is rejected without changing the selection. -/
theorem fileSelect_amended_witness :
    (handleFileSelect (some { fname := "movie", ftype := "video/mp4", size := 12 })
        { selectedFile := none, errorMsg := none } =
      { selectedFile := some { fname := "movie", ftype := "video/mp4", size := 12 },
        errorMsg := none }) ∧
    (handleFileSelect (some { fname := "notes", ftype := "text/plain", size := 3 })
        { selectedFile := none, errorMsg := none } =
      { selectedFile := none, errorMsg := some "Please select a valid video file" }) :=
  ⟨(fileSelect_amended { fname := "movie", ftype := "video/mp4", size := 12 }
      { selectedFile := none, errorMsg := none }).1 (by decide),
   (fileSelect_amended { fname := "notes", ftype := "text/plain", size := 3 }
      { selectedFile := none, errorMsg := none }).2 (by decide)⟩

/-! ## Theorems about the remote-control handlers -/

/-- Claim C5: invoking the registered pause/resume operation once, in the
read-model state at which the handler was registered (so the captured
closure values coincide with the live read model), returns the previous
`isPlaying` value as a string, leaves `isPlaying` equal to the negation
of that previous value, and issues no play or pause command on the
playback element. -/
theorem pausePlay_single_invocation (m : ReadModel) :
    (pausePlayStreamHandler m m).response = toString m.isPlaying ∧
    (pausePlayStreamHandler m m).model.isPlaying = !m.isPlaying ∧
    (pausePlayStreamHandler m m).elemCmds = [] := by
  simp [pausePlayStreamHandler]

/-- Claim C6: the relative-seek operation, invoked in the read-model
state at which it was registered, sets `currentTime` to
`min (max 0 (c + o)) d` and returns the pre-update current time as a
string. -/
theorem seek_clamps (m : ReadModel) (o : ℚ) (hc : 0 ≤ m.currentTime) (hd : 0 ≤ m.duration) :
    (seekStreamHandler m o m).model.currentTime = min (max 0 (m.currentTime + o)) m.duration ∧
    (seekStreamHandler m o m).response = toString m.currentTime := by
  simp [seekStreamHandler]

/-- Witness for `seek_clamps`, covering the two examples of the claim:
`c = 10, d = 60, o = -20` yields `0`, and `c = 50, d = 60, o = 20`
yields `60`. -/
theorem seek_clamps_witness :
    (seekStreamHandler seekModelA (-20) seekModelA).model.currentTime = 0 ∧
    (seekStreamHandler seekModelB 20 seekModelB).model.currentTime = 60 := by
  constructor
  · have h := (seek_clamps seekModelA (-20) (by norm_num [seekModelA]) (by norm_num [seekModelA])).1
    rw [h]; norm_num [seekModelA]
  · have h := (seek_clamps seekModelB 20 (by norm_num [seekModelB]) (by norm_num [seekModelB])).1
    rw [h]; norm_num [seekModelB]

/-- Claim C9: both handlers compute exclusively from the values captured
at registration — the live read model does not influence the response or
the written value — and two consecutive invocations of the pause/resume
toggle without re-registration return the same string and leave
`isPlaying` at the same value (the flag does not alternate). -/
theorem rpc_handlers_use_captured_state (captured live : ReadModel) (o : ℚ) :
    (pausePlayStreamHandler captured live).response = toString captured.isPlaying ∧
    (pausePlayStreamHandler captured live).model.isPlaying = !captured.isPlaying ∧
    (seekStreamHandler captured o live).model.currentTime
        = min (max 0 (captured.currentTime + o)) captured.duration ∧
    (seekStreamHandler captured o live).response = toString captured.currentTime ∧
    (pausePlayStreamHandler captured (pausePlayStreamHandler captured live).model).response
        = (pausePlayStreamHandler captured live).response ∧
    (pausePlayStreamHandler captured (pausePlayStreamHandler captured live).model).model.isPlaying
        = (pausePlayStreamHandler captured live).model.isPlaying := by
  simp [pausePlayStreamHandler, seekStreamHandler]

theorem finishStop_ok (p : World × Option Err) (h : p.2 = none) :
    finishStop p = { p.1 with engine := { p.1.engine with isLoading := false } } := by
  obtain ⟨w, e⟩ := p
  simp only at h
  subst h
  rfl

theorem finishStart_ok (sess : Session) (p : World × Option Err) (h : p.2 = none) :
    finishStart sess p = { p.1 with engine := { p.1.engine with isLoading := false } } := by
  obtain ⟨w, e⟩ := p
  simp only at h
  subst h
  rfl

theorem finishPublish_snd (p : World × Option Err) : (finishPublish p).2 = p.2 := by
  obtain ⟨w, e⟩ := p
  cases e <;> rfl

theorem finishPublish_errorsFired (p : World × Option Err) :
    (finishPublish p).1.trace.errorsFired = p.1.trace.errorsFired := by
  obtain ⟨w, e⟩ := p
  cases e <;> rfl

theorem finishPublish_publishCalls (p : World × Option Err) :
    (finishPublish p).1.trace.publishCalls = p.1.trace.publishCalls := by
  obtain ⟨w, e⟩ := p
  cases e <;> rfl

theorem publishAudioLoop_nominal (sess : Session) (hP : ∀ n, sess.pubFail n = false)
    (sid : Nat) (ts : List SubTrack) (w : World) :
    publishAudioLoop sess sid ts w =
      ({ w with
          engine := { w.engine with
            audioTracksRef := w.engine.audioTracksRef.map
              (fun l => l ++ audioHandles w.trace.publishCalls.length ts) }
          trace := { w.trace with
            publishCalls := w.trace.publishCalls ++
              ts.map (fun t => { track := t, opts := audioOpts sid, ok := true }) } }, none) := by
  induction ts generalizing w with
  | nil =>
      obtain ⟨⟨s1, s2, s3, s4, a, s6⟩, elem, ⟨p, u, st, ef, tp, tu, ec⟩⟩ := w
      cases a <;> simp [publishAudioLoop, audioHandles]
  | cons t rest ih =>
      obtain ⟨⟨s1, s2, s3, s4, a, s6⟩, elem, ⟨p, u, st, ef, tp, tu, ec⟩⟩ := w
      simp only [publishAudioLoop, publishStep, hP, Bool.not_false, if_true]
      rw [ih]
      cases a <;> simp [audioHandles, List.append_assoc]

theorem startAfterPlay_nominal (sess : Session) (hP : ∀ n, sess.pubFail n = false)
    (cap : Stream) (w : World) :
    (startAfterPlay sess cap w).2 = none ∧
    (startAfterPlay sess cap w).1.engine.isSharing = true ∧
    (startAfterPlay sess cap w).1.trace.publishCalls =
      w.trace.publishCalls ++
      (match cap.videoTracks with
       | [] => ([] : List PublishCall)
       | t :: _ => [{ track := t, opts := videoOpts cap.sid, ok := true }]) ++
      cap.audioTracks.map (fun t => { track := t, opts := audioOpts cap.sid, ok := true }) := by
  obtain ⟨csid, cv, ca⟩ := cap
  obtain ⟨⟨s1, s2, s3, s4, a, s6⟩, elem, ⟨p, u, st, ef, tp, tu, ec⟩⟩ := w
  cases cv <;> cases ca <;>
    simp [startAfterPlay, publishStep, hP, publishAudioLoop_nominal _ hP, audioHandles,
          finishPublish]

theorem startBody_nominal (sess : Session) (hP : ∀ n, sess.pubFail n = false)
    (hPlay : sess.playFails = false) (cap : Stream) (el : Elem) (w : World) :
    (startBody sess cap el w).2 = none ∧
    (startBody sess cap el w).1.engine.isSharing = true ∧
    (startBody sess cap el w).1.trace.publishCalls =
      w.trace.publishCalls ++
      (match cap.videoTracks with
       | [] => ([] : List PublishCall)
       | t :: _ => [{ track := t, opts := videoOpts cap.sid, ok := true }]) ++
      cap.audioTracks.map (fun t => { track := t, opts := audioOpts cap.sid, ok := true }) := by
  obtain ⟨ep, em, evol⟩ := el
  obtain ⟨⟨s1, s2, s3, s4, a, s6⟩, elem, ⟨p, u, st, ef, tp, tu, ec⟩⟩ := w
  have h1 := fun w => (startAfterPlay_nominal sess hP cap w).1
  have h2 := fun w => (startAfterPlay_nominal sess hP cap w).2.1
  have h3 := fun w => (startAfterPlay_nominal sess hP cap w).2.2
  cases ep <;> simp [startBody, hPlay, h1, h2, h3]

/-- Claim C2: for every captured stream, a successful `startSharing()`
from the idle engine (bound element, no publish/play failure) leaves
`isSharing = true` and made exactly one publish call for the first video
sub-track (when one exists) under `shared-video-file` as a screen-share
source with simulcast disabled, followed by exactly one publish call per
audio sub-track — every audio sub-track — under `shared-video-audio`,
each carrying the capture stream identifier. -/
theorem startSharing_success_publishes (cap : Stream) (el : Elem) :
    ((startSharing nominalSession cap (initWorld (some el))).engine.isSharing = true) ∧
    ((startSharing nominalSession cap (initWorld (some el))).trace.publishCalls =
      (match cap.videoTracks with
       | [] => ([] : List PublishCall)
       | t :: _ => [{ track := t, opts := videoOpts cap.sid, ok := true }]) ++
      cap.audioTracks.map (fun t => { track := t, opts := audioOpts cap.sid, ok := true })) := by
  have hP : ∀ n, nominalSession.pubFail n = false := fun _ => rfl
  have hPlay : nominalSession.playFails = false := rfl
  have hsb := startBody_nominal nominalSession hP hPlay cap el
  constructor
  · simp only [startSharing, initWorld, initEngine]
    rw [finishStart_ok _ _ ((hsb _).1)]
    simpa using (hsb _).2.1
  · simp only [startSharing, initWorld, initEngine]
    rw [finishStart_ok _ _ ((hsb _).1)]
    simpa [Trace.empty] using (hsb _).2.2

theorem unpublishAudioLoop_nominal (sess : Session) (hU : ∀ n, sess.unpubFail n = false)
    (hs : List Handle) (w : World) :
    unpublishAudioLoop sess hs w =
      ({ w with trace := { w.trace with
          unpublishCalls := w.trace.unpublishCalls ++ hs.map (fun h => (h, true)) } }, none) := by
  induction hs generalizing w with
  | nil =>
      obtain ⟨eng, elem, ⟨p, u, st, ef, tp, tu, ec⟩⟩ := w
      simp [unpublishAudioLoop]
  | cons h rest ih =>
      obtain ⟨eng, elem, ⟨p, u, st, ef, tp, tu, ec⟩⟩ := w
      simp only [unpublishAudioLoop, unpublishStep, hU, Bool.not_false, if_true]
      rw [ih]
      simp [List.append_assoc]

theorem stopBody_nominal (sess : Session) (hU : ∀ n, sess.unpubFail n = false) (w : World) :
    (stopBody sess w).2 = none ∧
    (stopBody sess w).1.engine.videoTrackRef = none ∧
    (stopBody sess w).1.engine.audioTracksRef = none ∧
    (stopBody sess w).1.engine.streamRef = none ∧
    (stopBody sess w).1.engine.isSharing = false ∧
    (stopBody sess w).1.engine.isLoading = w.engine.isLoading ∧
    (stopBody sess w).1.engine.error = w.engine.error ∧
    (stopBody sess w).1.trace.errorsFired = w.trace.errorsFired ∧
    (stopBody sess w).1.trace.publishCalls = w.trace.publishCalls ∧
    (stopBody sess w).1.trace.trackUnpublishedFired = w.trace.trackUnpublishedFired + 1 := by
  obtain ⟨⟨s1, s2, s3, vtr, atr, str⟩, elem, ⟨p, u, st, ef, tp, tu, ec⟩⟩ := w
  cases vtr <;> cases atr <;> cases str <;> cases elem <;>
    simp [stopBody, unpublishStep, hU, unpublishAudioLoop_nominal _ hU]

theorem stopSharing_nominal (sess : Session) (hU : ∀ n, sess.unpubFail n = false) (w : World) :
    (stopSharing sess w).engine.videoTrackRef = none ∧
    (stopSharing sess w).engine.audioTracksRef = none ∧
    (stopSharing sess w).engine.streamRef = none ∧
    (stopSharing sess w).engine.isSharing = false ∧
    (stopSharing sess w).engine.isLoading = false ∧
    (stopSharing sess w).engine.error = w.engine.error ∧
    (stopSharing sess w).trace.errorsFired = w.trace.errorsFired ∧
    (stopSharing sess w).trace.publishCalls = w.trace.publishCalls ∧
    (stopSharing sess w).trace.trackUnpublishedFired = w.trace.trackUnpublishedFired + 1 := by
  have hsb := stopBody_nominal sess hU { w with engine := { w.engine with isLoading := true } }
  obtain ⟨e1, e2, e3, e4, e5, e6, e7, e8, e9, e10⟩ := hsb
  unfold stopSharing
  rw [finishStop_ok _ e1]
  simp_all

/-- Claim C7: `stopSharing()` on an idle engine (no retained video
handle, no audio handles, no stream) raises no error, keeps `isSharing`
false, makes no unpublish call, and still fires `onTrackUnpublished`. -/
theorem stopSharing_idle_is_noop (sess : Session) (l : Bool) (e : Option Err)
    (elem : Option Elem) :
    (stopSharing sess (idleWorld l e elem)).engine.isSharing = false ∧
    (stopSharing sess (idleWorld l e elem)).engine.error = e ∧
    (stopSharing sess (idleWorld l e elem)).engine.videoTrackRef = none ∧
    (stopSharing sess (idleWorld l e elem)).engine.audioTracksRef = none ∧
    (stopSharing sess (idleWorld l e elem)).engine.streamRef = none ∧
    (stopSharing sess (idleWorld l e elem)).trace.errorsFired = [] ∧
    (stopSharing sess (idleWorld l e elem)).trace.unpublishCalls = [] ∧
    (stopSharing sess (idleWorld l e elem)).trace.trackUnpublishedFired = 1 := by
  cases elem <;> simp [stopSharing, stopBody, finishStop, idleWorld, Trace.empty]

/-- Claim C10: when the first unpublish call inside `stopSharing()`
throws while the engine is sharing, the error is caught and `onError`
fires, but `isSharing` stays true, the failed handle, all subsequent
handles and the stream reference remain retained, no sub-track is
stopped, the element is not paused, and `onTrackUnpublished` is not
invoked. -/
theorem stopSharing_first_unpublish_throws (sess : Session) (h0 : sess.unpubFail 0 = true)
    (vh : Handle) (ats : Option (List Handle)) (s : Stream) (l : Bool) (e : Option Err)
    (elem : Option Elem) :
    (stopSharing sess (sharingWorld vh ats s l e elem)).engine.isSharing = true ∧
    (stopSharing sess (sharingWorld vh ats s l e elem)).engine.videoTrackRef = some vh ∧
    (stopSharing sess (sharingWorld vh ats s l e elem)).engine.audioTracksRef = ats ∧
    (stopSharing sess (sharingWorld vh ats s l e elem)).engine.streamRef = some s ∧
    (stopSharing sess (sharingWorld vh ats s l e elem)).trace.stoppedTracks = [] ∧
    (stopSharing sess (sharingWorld vh ats s l e elem)).trace.trackUnpublishedFired = 0 ∧
    (stopSharing sess (sharingWorld vh ats s l e elem)).trace.errorsFired =
      [Err.unpublishFailed 0] ∧
    (stopSharing sess (sharingWorld vh ats s l e elem)).engine.error =
      some (Err.unpublishFailed 0) ∧
    (stopSharing sess (sharingWorld vh ats s l e elem)).trace.unpublishCalls = [(vh, false)] ∧
    (stopSharing sess (sharingWorld vh ats s l e elem)).trace.elemCmds = [] := by
  simp [stopSharing, stopBody, unpublishStep, h0, finishStop, sharingWorld, Trace.empty]

/-- Witness for `stopSharing_first_unpublish_throws`: a concrete
sharing state whose first unpublish call throws. -/
theorem stopSharing_first_unpublish_throws_witness :
    (stopSharing failingUnpublishSession
      (sharingWorld { hid := 0, track := { tid := 1 } } (some [{ hid := 1, track := { tid := 2 } }])
        { sid := 7, videoTracks := [{ tid := 1 }], audioTracks := [{ tid := 2 }] }
        false none none)).engine.isSharing = true :=
  (stopSharing_first_unpublish_throws failingUnpublishSession rfl
    { hid := 0, track := { tid := 1 } } (some [{ hid := 1, track := { tid := 2 } }])
    { sid := 7, videoTracks := [{ tid := 1 }], audioTracks := [{ tid := 2 }] }
    false none none).1

theorem stopSharing_nominal_vref (sess : Session) (hU : ∀ n, sess.unpubFail n = false)
    (w : World) : (stopSharing sess w).engine.videoTrackRef = none :=
  (stopSharing_nominal sess hU w).1

theorem stopSharing_nominal_aref (sess : Session) (hU : ∀ n, sess.unpubFail n = false)
    (w : World) : (stopSharing sess w).engine.audioTracksRef = none :=
  (stopSharing_nominal sess hU w).2.1

theorem stopSharing_nominal_sref (sess : Session) (hU : ∀ n, sess.unpubFail n = false)
    (w : World) : (stopSharing sess w).engine.streamRef = none :=
  (stopSharing_nominal sess hU w).2.2.1

theorem stopSharing_nominal_sharing (sess : Session) (hU : ∀ n, sess.unpubFail n = false)
    (w : World) : (stopSharing sess w).engine.isSharing = false :=
  (stopSharing_nominal sess hU w).2.2.2.1

theorem stopSharing_nominal_errors (sess : Session) (hU : ∀ n, sess.unpubFail n = false)
    (w : World) : (stopSharing sess w).trace.errorsFired = w.trace.errorsFired :=
  (stopSharing_nominal sess hU w).2.2.2.2.2.2.1

theorem stopSharing_nominal_calls (sess : Session) (hU : ∀ n, sess.unpubFail n = false)
    (w : World) : (stopSharing sess w).trace.publishCalls = w.trace.publishCalls :=
  (stopSharing_nominal sess hU w).2.2.2.2.2.2.2.1

theorem publishAudioLoop_errorsFired (sess : Session) (sid : Nat) (ts : List SubTrack) :
    ∀ w : World, (publishAudioLoop sess sid ts w).1.trace.errorsFired = w.trace.errorsFired := by
  induction ts with
  | nil => intro w; simp [publishAudioLoop]
  | cons t rest ih =>
      intro w
      obtain ⟨⟨s1, s2, s3, s4, a, s6⟩, elem, ⟨p, u, st, ef, tp, tu, ec⟩⟩ := w
      cases hp : sess.pubFail p.length <;>
        simp [publishAudioLoop, publishStep, hp, ih]

theorem publishAudioLoop_err_shape (sess : Session) (sid : Nat) (ts : List SubTrack) :
    ∀ (w : World) (e : Err), (publishAudioLoop sess sid ts w).2 = some e →
      ∃ k, e = Err.publishFailed k := by
  induction ts with
  | nil => intro w e h; simp [publishAudioLoop] at h
  | cons t rest ih =>
      intro w e h
      obtain ⟨⟨s1, s2, s3, s4, a, s6⟩, elem, ⟨p, u, st, ef, tp, tu, ec⟩⟩ := w
      cases hp : sess.pubFail p.length <;> simp [publishAudioLoop, publishStep, hp] at h
      · exact ih _ _ h
      · exact ⟨p.length, h.symm⟩

theorem publishAudioLoop_ok_preserved (sess : Session) (sid : Nat) (ts : List SubTrack) :
    ∀ w : World, (publishAudioLoop sess sid ts w).2 = none →
      (∀ pc ∈ w.trace.publishCalls, pc.ok = true) →
      ∀ pc ∈ (publishAudioLoop sess sid ts w).1.trace.publishCalls, pc.ok = true := by
  induction ts with
  | nil => intro w _ hok; simpa [publishAudioLoop] using hok
  | cons t rest ih =>
      intro w hnone hok
      obtain ⟨⟨s1, s2, s3, s4, a, s6⟩, elem, ⟨p, u, st, ef, tp, tu, ec⟩⟩ := w
      cases hp : sess.pubFail p.length
      · simp only [publishAudioLoop, publishStep, hp] at hnone ⊢
        refine ih _ (by simpa using hnone) ?_
        intro pc hpc
        simp only [List.mem_append, List.mem_singleton] at hpc
        rcases hpc with hpc | hpc
        · exact hok pc hpc
        · simp [hpc]
      · simp [publishAudioLoop, publishStep, hp] at hnone

theorem startAfterPlay_errorsFired (sess : Session) (cap : Stream) (w : World) :
    (startAfterPlay sess cap w).1.trace.errorsFired = w.trace.errorsFired := by
  obtain ⟨csid, cv, ca⟩ := cap
  obtain ⟨⟨s1, s2, s3, s4, a, s6⟩, elem, ⟨p, u, st, ef, tp, tu, ec⟩⟩ := w
  cases cv with
  | nil =>
      cases ca with
      | nil => simp [startAfterPlay, finishPublish]
      | cons c cs =>
          simp [startAfterPlay, finishPublish_errorsFired, publishAudioLoop_errorsFired]
  | cons v vs =>
      cases hp : sess.pubFail p.length with
      | false =>
          cases ca with
          | nil => simp [startAfterPlay, publishStep, hp, finishPublish]
          | cons c cs =>
              simp [startAfterPlay, publishStep, hp, finishPublish_errorsFired,
                    publishAudioLoop_errorsFired]
      | true => simp [startAfterPlay, publishStep, hp]

theorem startAfterPlay_err_shape (sess : Session) (cap : Stream) (w : World) (e : Err)
    (h : (startAfterPlay sess cap w).2 = some e) : ∃ k, e = Err.publishFailed k := by
  obtain ⟨csid, cv, ca⟩ := cap
  obtain ⟨⟨s1, s2, s3, s4, a, s6⟩, elem, ⟨p, u, st, ef, tp, tu, ec⟩⟩ := w
  cases cv with
  | nil =>
      cases ca with
      | nil => simp [startAfterPlay, finishPublish] at h
      | cons c cs =>
          simp [startAfterPlay, finishPublish_snd] at h
          exact publishAudioLoop_err_shape sess csid _ _ _ h
  | cons v vs =>
      cases hp : sess.pubFail p.length with
      | false =>
          cases ca with
          | nil => simp [startAfterPlay, publishStep, hp, finishPublish] at h
          | cons c cs =>
              simp [startAfterPlay, publishStep, hp, finishPublish_snd] at h
              exact publishAudioLoop_err_shape sess csid _ _ _ h
      | true =>
          simp [startAfterPlay, publishStep, hp] at h
          exact ⟨p.length, h.symm⟩

theorem startAfterPlay_ok_preserved (sess : Session) (cap : Stream) (w : World)
    (hnone : (startAfterPlay sess cap w).2 = none)
    (hok : ∀ pc ∈ w.trace.publishCalls, pc.ok = true) :
    ∀ pc ∈ (startAfterPlay sess cap w).1.trace.publishCalls, pc.ok = true := by
  obtain ⟨csid, cv, ca⟩ := cap
  obtain ⟨⟨s1, s2, s3, s4, a, s6⟩, elem, ⟨p, u, st, ef, tp, tu, ec⟩⟩ := w
  cases cv with
  | nil =>
      cases ca with
      | nil => simpa [startAfterPlay, finishPublish] using hok
      | cons c cs =>
          simp only [startAfterPlay, finishPublish_snd, finishPublish_publishCalls] at hnone ⊢
          refine publishAudioLoop_ok_preserved sess csid _ _ (by simpa using hnone) ?_
          simpa using hok
  | cons v vs =>
      cases hp : sess.pubFail p.length with
      | false =>
          cases ca with
          | nil =>
              simp only [startAfterPlay, publishStep, hp, Bool.not_false, reduceIte,
                         finishPublish] at hnone ⊢
              intro pc hpc
              simp only [List.mem_append, List.mem_singleton] at hpc
              rcases hpc with hpc | hpc
              · exact hok pc hpc
              · simp [hpc]
          | cons c cs =>
              simp only [startAfterPlay, publishStep, hp, Bool.not_false, reduceIte,
                         finishPublish_snd, finishPublish_publishCalls] at hnone ⊢
              refine publishAudioLoop_ok_preserved sess csid _ _ (by simpa using hnone) ?_
              intro pc hpc
              simp only [List.mem_append, List.mem_singleton] at hpc
              rcases hpc with hpc | hpc
              · exact hok pc hpc
              · simp [hpc]
      | true => simp [startAfterPlay, publishStep, hp] at hnone

theorem startBody_errorsFired (sess : Session) (cap : Stream) (el : Elem) (w : World) :
    (startBody sess cap el w).1.trace.errorsFired = w.trace.errorsFired := by
  obtain ⟨ep, em, evol⟩ := el
  obtain ⟨⟨s1, s2, s3, s4, a, s6⟩, elem, ⟨p, u, st, ef, tp, tu, ec⟩⟩ := w
  cases ep <;> cases hpf : sess.playFails <;>
    simp [startBody, hpf, startAfterPlay_errorsFired]

theorem startBody_err_shape (sess : Session) (cap : Stream) (el : Elem) (w : World) (e : Err)
    (h : (startBody sess cap el w).2 = some e) :
    (e = Err.playFailed ∧
      (startBody sess cap el w).1.trace.publishCalls = w.trace.publishCalls) ∨
    ∃ k, e = Err.publishFailed k := by
  obtain ⟨ep, em, evol⟩ := el
  obtain ⟨⟨s1, s2, s3, s4, a, s6⟩, elem, ⟨p, u, st, ef, tp, tu, ec⟩⟩ := w
  cases ep with
  | false =>
      right
      have h2 := h
      simp [startBody] at h2
      exact startAfterPlay_err_shape sess cap _ e h2
  | true =>
      cases hpf : sess.playFails with
      | false =>
          right
          have h2 := h
          simp [startBody, hpf] at h2
          exact startAfterPlay_err_shape sess cap _ e h2
      | true =>
          left
          simp [startBody, hpf] at h ⊢
          exact h.symm

theorem startBody_ok_preserved (sess : Session) (cap : Stream) (el : Elem) (w : World)
    (hnone : (startBody sess cap el w).2 = none)
    (hok : ∀ pc ∈ w.trace.publishCalls, pc.ok = true) :
    ∀ pc ∈ (startBody sess cap el w).1.trace.publishCalls, pc.ok = true := by
  obtain ⟨ep, em, evol⟩ := el
  obtain ⟨⟨s1, s2, s3, s4, a, s6⟩, elem, ⟨p, u, st, ef, tp, tu, ec⟩⟩ := w
  cases ep with
  | false =>
      have hnone2 := hnone
      simp [startBody] at hnone2
      have hres := startAfterPlay_ok_preserved sess cap _ hnone2 (by simpa using hok)
      intro pc hpc
      refine hres pc ?_
      simpa [startBody] using hpc
  | true =>
      cases hpf : sess.playFails with
      | false =>
          have hnone2 := hnone
          simp [startBody, hpf] at hnone2
          have hres := startAfterPlay_ok_preserved sess cap _ hnone2 (by simpa using hok)
          intro pc hpc
          refine hres pc ?_
          simpa [startBody, hpf] using hpc
      | true => simp [startBody, hpf] at hnone

theorem startSharing_unfold (sess : Session) (cap : Stream) (el : Elem) :
    startSharing sess cap (initWorld (some el)) =
      finishStart sess (startBody sess cap el (startWorld el)) := rfl

theorem finishStart_publish_error (sess : Session) (hU : ∀ n, sess.unpubFail n = false)
    (w1 : World) (e : Err) (hE : w1.trace.errorsFired = []) :
    (finishStart sess (w1, some e)).engine.isSharing = false ∧
    (finishStart sess (w1, some e)).engine.videoTrackRef = none ∧
    (finishStart sess (w1, some e)).engine.audioTracksRef = none ∧
    (finishStart sess (w1, some e)).engine.streamRef = none ∧
    (finishStart sess (w1, some e)).trace.errorsFired = [e] := by
  obtain ⟨⟨s1, s2, s3, s4, a, s6⟩, elem, ⟨p, u, st, ef, tp, tu, ec⟩⟩ := w1
  simp only at hE
  simp [finishStart, stopSharing_nominal_vref sess hU, stopSharing_nominal_aref sess hU,
        stopSharing_nominal_sref sess hU, stopSharing_nominal_sharing sess hU,
        stopSharing_nominal_errors sess hU, hE]

/-- Claim C3: for every execution in which a publish call inside
`startSharing()` throws (unpublish itself behaving normally), the engine
ends non-sharing with no retained stream reference and no retained
publication handles — the compensating `stopSharing()` fully ran — and
`onError` fired exactly once, with the publish failure. -/
theorem startSharing_publish_failure (sess : Session) (hU : ∀ n, sess.unpubFail n = false)
    (cap : Stream) (el : Elem)
    (hFail : ∃ pc ∈ (startSharing sess cap (initWorld (some el))).trace.publishCalls,
      pc.ok = false) :
    (startSharing sess cap (initWorld (some el))).engine.isSharing = false ∧
    (startSharing sess cap (initWorld (some el))).engine.videoTrackRef = none ∧
    (startSharing sess cap (initWorld (some el))).engine.audioTracksRef = none ∧
    (startSharing sess cap (initWorld (some el))).engine.streamRef = none ∧
    (∃ k, (startSharing sess cap (initWorld (some el))).trace.errorsFired =
      [Err.publishFailed k]) := by
  rw [startSharing_unfold] at hFail ⊢
  rcases hT : startBody sess cap el (startWorld el) with ⟨w1, e1⟩
  rw [hT] at hFail
  cases e1 with
  | none =>
      exfalso
      obtain ⟨pc, hmem, hko⟩ := hFail
      have hok := startBody_ok_preserved sess cap el (startWorld el) (by rw [hT])
        (by simp [startWorld, Trace.empty])
      rw [hT] at hok
      have : pc.ok = true := hok pc (by simpa [finishStart] using hmem)
      simp [this] at hko
  | some e =>
      rcases startBody_err_shape sess cap el (startWorld el) e (by rw [hT]) with
        ⟨hpe, hcalls⟩ | ⟨k, hk⟩
      · exfalso
        obtain ⟨pc, hmem, hko⟩ := hFail
        rw [hT] at hcalls
        have hfc : (finishStart sess (w1, some e)).trace.publishCalls =
            w1.trace.publishCalls := by
          simp [finishStart, stopSharing_nominal_calls sess hU]
        rw [hfc] at hmem
        rw [hcalls] at hmem
        simp [startWorld, Trace.empty] at hmem
      · subst hk
        have hE : w1.trace.errorsFired = [] := by
          have h2 := startBody_errorsFired sess cap el (startWorld el)
          rw [hT] at h2
          simpa [startWorld, Trace.empty] using h2
        exact ⟨(finishStart_publish_error sess hU w1 _ hE).1,
               (finishStart_publish_error sess hU w1 _ hE).2.1,
               (finishStart_publish_error sess hU w1 _ hE).2.2.1,
               (finishStart_publish_error sess hU w1 _ hE).2.2.2.1,
               k, (finishStart_publish_error sess hU w1 _ hE).2.2.2.2⟩

/-- Witness for `startSharing_publish_failure`: a concrete run whose
first publish call throws. -/
theorem startSharing_publish_failure_witness :
    (startSharing failingPublishSession failCap (initWorld (some failElem))).engine.isSharing =
      false :=
  (startSharing_publish_failure failingPublishSession (fun _ => rfl) failCap failElem
    (by decide)).1

end RapVoice
